import Mathlib

/-!
Verification of the Accurate Binary Convolution (ABC) notebook (src/ABC.ipynb).

Embedding conventions:
* float32 tensor arithmetic is idealised as real arithmetic (`ℝ`);
* a rank-4 tensor is a total function `ℕ → ℕ → ℕ → ℕ → ℝ` together with an
  explicit `Shape4` giving the extent of each axis (all reductions sum over
  `Finset.range` of the shape extents, exactly the element set TensorFlow
  reduces over);
* `tf.sign` is `Real.sign` (which maps 0 to 0, 0 < x to 1, x < 0 to -1 —
  the same convention as TensorFlow);
* TensorFlow variables become fields of explicit state records
  (`ApproxConvState`, `ABCState`, `AdamState`); the training op and the
  forward callables become explicit state-passing functions;
* the Python `ZeroDivisionError` raised by `2./(no_filters - 1)` when
  `no_filters = 1` (an eager Python-int division performed while the graph is
  being built) is modelled with `Except String`.
-/

noncomputable section

/-- Shape of a rank-4 tensor (width, height, in-channels, out-channels for a
filter bank; batch, height, width, channels for an activation). -/
structure Shape4 where
  d0 : ℕ
  d1 : ℕ
  d2 : ℕ
  d3 : ℕ

/-- A rank-4 tensor: a total assignment of a real to every index quadruple.
Entries outside the declared `Shape4` are irrelevant to every reduction. -/
abbrev Tensor4 := ℕ → ℕ → ℕ → ℕ → ℝ

/-- Number of elements of a rank-4 tensor of shape `s`. -/
def numel (s : Shape4) : ℕ := s.d0 * s.d1 * s.d2 * s.d3

/-- Sum of all elements of `W` inside shape `s` (the reduction set of
`tf.nn.moments(_, axes=range(rank))`, `tf.reduce_mean`, ...). -/
def sumAll (s : Shape4) (W : Tensor4) : ℝ :=
  ∑ a ∈ Finset.range s.d0, ∑ b ∈ Finset.range s.d1,
    ∑ c ∈ Finset.range s.d2, ∑ d ∈ Finset.range s.d3, W a b c d

/-- Mean over all elements, as computed by `tf.nn.moments` over every axis. -/
def tensor_mean (s : Shape4) (W : Tensor4) : ℝ := sumAll s W / numel s

/-- Population variance over all elements, as computed by `tf.nn.moments`
over every axis: average squared deviation from the mean. -/
def tensor_variance (s : Shape4) (W : Tensor4) : ℝ :=
  sumAll s (fun a b c d => (W a b c d - tensor_mean s W) ^ 2) / numel s

/-- Model of `tf.nn.moments(input_tensor, axes=range(rank))`: the pair
(mean, variance) over all elements. -/
def moments (s : Shape4) (W : Tensor4) : ℝ × ℝ := (tensor_mean s W, tensor_variance s W)

/-- Source `get_mean_stddev` (src/ABC.ipynb cell-6): moments over all axes,
then `stddev = tf.sqrt(variance)`. -/
def get_mean_stddev (s : Shape4) (W : Tensor4) : ℝ × ℝ :=
  ((moments s W).1, Real.sqrt (moments s W).2)

/-- The shift coefficient `-1. + (2./(no_filters - 1)) * i` from source
`get_shifted_stddev` (src/ABC.ipynb cell-8), for `i = 0 .. no_filters - 1`. -/
def spreaded_deviation (no_filters : ℕ) (i : ℕ) : ℝ :=
  -1 + (2 / ((no_filters : ℝ) - 1)) * i

/-- Source `get_shifted_stddev` (src/ABC.ipynb cell-8): scales each shift
coefficient by the standard deviation.  The Python expression
`2./(no_filters - 1)` divides by the plain int `no_filters - 1`, so for
`no_filters = 1` the graph construction raises `ZeroDivisionError`; this is the
`.error` branch. -/
def get_shifted_stddev (stddev : ℝ) (no_filters : ℕ) : Except String (ℕ → ℝ) :=
  if no_filters = 1 then .error "ZeroDivisionError: float division by zero"
  else .ok fun i => spreaded_deviation no_filters i * stddev

/-- Source `get_binary_filters` (src/ABC.ipynb cell-10): member `i` is
`tf.sign(tiled_filters + expanded_stddev)` where `tiled_filters` tiles
`convolution_filters - mean` and `expanded_stddev` broadcasts the `i`-th
shifted stddev; element-wise this is
`sign((W[a,b,c,d] - mean) + shifted_stddev[i])`. -/
def get_binary_filters (s : Shape4) (convolution_filters : Tensor4) (no_filters : ℕ) :
    Except String (ℕ → Tensor4) :=
  match get_shifted_stddev (get_mean_stddev s convolution_filters).2 no_filters with
  | .error e => .error e
  | .ok shifted =>
      .ok fun i a b c d =>
        Real.sign ((convolution_filters a b c d - (get_mean_stddev s convolution_filters).1)
          + shifted i)

/-- The binary filter bank produced on the success path of
`get_binary_filters` (member `i`, element `(a,b,c,d)`). -/
def binary_members (s : Shape4) (W : Tensor4) (M : ℕ) : ℕ → Tensor4 :=
  fun i a b c d =>
    Real.sign ((W a b c d - (get_mean_stddev s W).1)
      + spreaded_deviation M i * (get_mean_stddev s W).2)

/-- Row-major flattening `tf.reshape(W, [-1])` of a tensor of shape `s`
(source `reshaped_convolution_filters`, src/ABC.ipynb cell-12). -/
def reshaped_convolution_filters (s : Shape4) (W : Tensor4) : ℕ → ℝ :=
  fun j => W (j / (s.d1 * s.d2 * s.d3)) (j / (s.d2 * s.d3) % s.d1) (j / s.d3 % s.d2) (j % s.d3)

/-- `tf.reshape(binary_filters, [no_filters, -1])` (source
`reshaped_binary_filters`, src/ABC.ipynb cell-12). -/
def reshaped_binary_filters (s : Shape4) (B : ℕ → Tensor4) : ℕ → ℕ → ℝ :=
  fun i => reshaped_convolution_filters s (B i)

/-- Source `weighted_sum_filters` (src/ABC.ipynb cell-12):
`tf.reduce_sum(tf.multiply(alphas, reshaped_binary_filters), axis=0)`. -/
def weighted_sum_filters (M : ℕ) (alphas : ℕ → ℝ) (Bf : ℕ → ℕ → ℝ) : ℕ → ℝ :=
  fun j => ∑ i ∈ Finset.range M, alphas i * Bf i j

/-- Source `error` in `get_alphas` (src/ABC.ipynb cell-12):
`tf.square(reshaped_convolution_filters - weighted_sum_filters)`. -/
def alphas_error (s : Shape4) (M : ℕ) (W : Tensor4) (B : ℕ → Tensor4) (α : ℕ → ℝ) : ℕ → ℝ :=
  fun j => (reshaped_convolution_filters s W j
    - weighted_sum_filters M α (reshaped_binary_filters s B) j) ^ 2

/-- Source `loss` in `get_alphas` (src/ABC.ipynb cell-12):
`tf.reduce_mean(error, axis=0)` over the `numel s` flattened positions. -/
def alphas_loss (s : Shape4) (M : ℕ) (W : Tensor4) (B : ℕ → Tensor4) (α : ℕ → ℝ) : ℝ :=
  (∑ j ∈ Finset.range (numel s), alphas_error s M W B α j) / numel s

/-- Modelled from the spec: mean squared error between two length-`N`
vectors (spec 4.3, "minimizing mean squared error between FilterBank
(flattened to one dimension) and the weighted sum").  Used only to compare
the source loss against the specification formula. -/
def mse (N : ℕ) (target approx : ℕ → ℝ) : ℝ :=
  (∑ j ∈ Finset.range N, (target j - approx j) ^ 2) / N

/-- Modelled from the spec (4.1): "mean = arithmetic average of all
elements". -/
def specMean (s : Shape4) (W : Tensor4) : ℝ := sumAll s W / numel s

/-- Modelled from the spec (4.1): "stddev = sqrt of the average squared
deviation from that mean". -/
def specStddev (s : Shape4) (W : Tensor4) : ℝ :=
  Real.sqrt (sumAll s (fun a b c d => (W a b c d - specMean s W) ^ 2) / numel s)

/-- Modelled from the spec (4.2): the i-th evenly spaced offset
"shift_i = −1 + i · (2 / (M − 1))". -/
def specShift (M i : ℕ) : ℝ := -1 + (i : ℝ) * (2 / ((M : ℝ) - 1))

/-- Modelled from the spec (claim about 4.2): "binary member i equals
sign(W − mean + shift_i · stddev) element-wise". -/
def specBinaryMember (s : Shape4) (W : Tensor4) (M i : ℕ) : Tensor4 :=
  fun a b c d => Real.sign (W a b c d - specMean s W + specShift M i * specStddev s W)

/-- State of a constructed `ApproxConv` closure (src/ABC.ipynb cell-15): the
TF variables (`filters`, `biases`, `alphas`) plus the derived binary filters
and the captured configuration.  `biases` is the all-zero function when
`convolution_biases is None` (the Python `biases = 0.`). -/
structure ApproxConvState where
  no_filters : ℕ
  fshape : Shape4
  strides : ℕ × ℕ
  filters : Tensor4
  biases : ℕ → ℝ
  binary_filters : ℕ → Tensor4
  alphas : ℕ → ℝ

/-- Source `ApproxConv` constructor (src/ABC.ipynb cell-15).  `alphas_init`
stands for the sampled initial value of the `alphas` variable
(`tf.random_normal(shape=(no_filters,1), mean=1.0, stddev=0.1)`); the random
draw is environment-supplied, so it is a parameter.  Padding is the source
default `VALID`.  The `ZeroDivisionError` raised while building the binary
filters for `no_filters = 1` propagates. -/
def ApproxConv (no_filters : ℕ) (fshape : Shape4) (convolution_filters : Tensor4)
    (convolution_biases : Option (ℕ → ℝ)) (strides : ℕ × ℕ) (alphas_init : ℕ → ℝ) :
    Except String ApproxConvState :=
  match get_binary_filters fshape convolution_filters no_filters with
  | .error e => .error e
  | .ok bf =>
      .ok { no_filters := no_filters
            fshape := fshape
            strides := strides
            filters := convolution_filters
            biases := convolution_biases.getD fun _ => 0
            binary_filters := bf
            alphas := alphas_init }

/-- `tf.nn.conv2d(input, filter, strides=(1, sh, sw, 1), padding="VALID")`:
output `(b,i,j,k)` is the sliding-window inner product of the input patch at
`(i·sh, j·sw)` with filter slice `k`; `fshape` is the filter's shape
(height, width, in-channels, out-channels). -/
def conv2d (fshape : Shape4) (strides : ℕ × ℕ) (input filter : Tensor4) : Tensor4 :=
  fun b i j k =>
    ∑ di ∈ Finset.range fshape.d0, ∑ dj ∈ Finset.range fshape.d1,
      ∑ q ∈ Finset.range fshape.d2,
        input b (i * strides.1 + di) (j * strides.2 + dj) q * filter di dj q k

/-- Source `ApproxConvLayer` closure (src/ABC.ipynb cell-15): for each of
the `no_filters` binary members, a binary convolution plus `biases`, then a
weighted sum with the broadcast `alphas`:
`reduce_sum(multiply(conv_outputs, reshaped_alphas), axis=0)`. -/
def ApproxConvLayer (st : ApproxConvState) (input : Tensor4) : Tensor4 :=
  fun b i j k =>
    ∑ m ∈ Finset.range st.no_filters,
      st.alphas m *
        (conv2d st.fshape st.strides input (st.binary_filters m) b i j k + st.biases k)

/-- `tf.clip_by_value(t, lo, hi) = maximum(minimum(t, hi), lo)`. -/
def clip_by_value (x lo hi : ℝ) : ℝ := max (min x hi) lo

/-- The `shifted_input` of a branch of `ABCLayer` (src/ABC.ipynb cell-18):
`tf.clip_by_value(input + shift, 0., 1.)`. -/
def shifted_input (shift x : ℝ) : ℝ := clip_by_value (x + shift) 0 1

/-- The `binarized_activation` of a branch of `ABCLayer` (src/ABC.ipynb
cell-18): `tf.sign(shifted_input - 0.5)`. -/
def binarized_activation (shift x : ℝ) : ℝ := Real.sign (shifted_input shift x - 0.5)

/-- State of a constructed `ABC` closure (src/ABC.ipynb cell-18): the
`shift_parameters` and `betas` variables plus the wrapped `ApproxConv`
state. -/
structure ABCState where
  no_ApproxConvLayers : ℕ
  shift_parameters : ℕ → ℝ
  betas : ℕ → ℝ
  approx : ApproxConvState

/-- Source `ABC` constructor (src/ABC.ipynb cell-18): allocates
`shift_parameters` (initialised to the constant 0) and `betas` (initialised
to the constant 1) and instantiates one shared `ApproxConv`. -/
def ABC (fshape : Shape4) (convolution_filters : Tensor4)
    (convolution_biases : Option (ℕ → ℝ)) (no_binary_filters : ℕ)
    (no_ApproxConvLayers : ℕ) (strides : ℕ × ℕ) (alphas_init : ℕ → ℝ) :
    Except String ABCState :=
  match ApproxConv no_binary_filters fshape convolution_filters convolution_biases
      strides alphas_init with
  | .error e => .error e
  | .ok ac =>
      .ok { no_ApproxConvLayers := no_ApproxConvLayers
            shift_parameters := fun _ => 0
            betas := fun _ => 1
            approx := ac }

/-- Source `ABCLayer` closure (src/ABC.ipynb cell-18): each branch clips and
binarizes the input with its shift parameter, runs the shared
`ApproxConvLayer`, and the branch outputs are combined by a weighted sum
with the broadcast `betas`. -/
def ABCLayer (st : ABCState) (input : Tensor4) : Tensor4 :=
  fun b i j k =>
    ∑ idx ∈ Finset.range st.no_ApproxConvLayers,
      st.betas idx *
        ApproxConvLayer st.approx
          (fun a b2 c d => binarized_activation (st.shift_parameters idx) (input a b2 c d))
          b i j k

/-- Gradient of `alphas_loss` with respect to `alphas` (what
`tf.train.AdamOptimizer().minimize(loss, var_list=[alphas])` differentiates,
src/ABC.ipynb cell-12): `d loss / d α_k = mean_j 2·(Σ_i α_i B_i[j] − W[j])·B_k[j]`. -/
def alphas_gradient (ac : ApproxConvState) : ℕ → ℝ :=
  fun k =>
    (∑ j ∈ Finset.range (numel ac.fshape),
        2 * (weighted_sum_filters ac.no_filters ac.alphas
              (reshaped_binary_filters ac.fshape ac.binary_filters) j
            - reshaped_convolution_filters ac.fshape ac.filters j)
          * reshaped_binary_filters ac.fshape ac.binary_filters k j) / numel ac.fshape

/-- Internal state of the dedicated Adam optimizer for `alphas` (step count
and the two moment slots). -/
structure AdamState where
  t : ℕ
  m : ℕ → ℝ
  v : ℕ → ℝ

/-- TF 1.x `AdamOptimizer` default learning rate. -/
def adam_lr : ℝ := 0.001

/-- TF 1.x `AdamOptimizer` default beta1. -/
def adam_beta1 : ℝ := 0.9

/-- TF 1.x `AdamOptimizer` default beta2. -/
def adam_beta2 : ℝ := 0.999

/-- TF 1.x `AdamOptimizer` default epsilon. -/
def adam_epsilon : ℝ := 1e-8

/-- Adam first-moment update for gradient `g`. -/
def adam_next_m (g : ℕ → ℝ) (opt : AdamState) : ℕ → ℝ :=
  fun k => adam_beta1 * opt.m k + (1 - adam_beta1) * g k

/-- Adam second-moment update for gradient `g`. -/
def adam_next_v (g : ℕ → ℝ) (opt : AdamState) : ℕ → ℝ :=
  fun k => adam_beta2 * opt.v k + (1 - adam_beta2) * (g k) ^ 2

/-- Adam parameter update: `α − lr·√(1−β2^t)/(1−β1^t) · m̂ / (√v̂ + ε)` in the
slot formulation used by TF. -/
def adam_updated (g α : ℕ → ℝ) (opt : AdamState) : ℕ → ℝ :=
  fun k =>
    α k - (adam_lr * Real.sqrt (1 - adam_beta2 ^ (opt.t + 1)) / (1 - adam_beta1 ^ (opt.t + 1)))
      * adam_next_m g opt k / (Real.sqrt (adam_next_v g opt k) + adam_epsilon)

/-- Source `alphas_training_op` (src/ABC.ipynb cell-12):
`AdamOptimizer().minimize(loss, var_list=[alphas])`.  One invocation writes
the `alphas` variable (and the optimizer's own slots); every other field of
the layer state is untouched. -/
def alphas_training_op (ac : ApproxConvState) (opt : AdamState) :
    ApproxConvState × AdamState :=
  ({ ac with alphas := adam_updated (alphas_gradient ac) ac.alphas opt },
   { t := opt.t + 1
     m := adam_next_m (alphas_gradient ac) opt
     v := adam_next_v (alphas_gradient ac) opt })

/-- The alpha training op returned by `ABC` (src/ABC.ipynb cell-18): it is
the wrapped `ApproxConv`'s training op, so it rewrites only the `approx`
component's `alphas`. -/
def ABC_alphas_training_op (st : ABCState) (opt : AdamState) : ABCState × AdamState :=
  ({ st with approx := (alphas_training_op st.approx opt).1 },
   (alphas_training_op st.approx opt).2)

/-- Evaluating the `ApproxConvLayer` forward graph: it contains no variable
assignment, so it returns its output and the state unchanged. -/
def ApproxConvLayer_run (ac : ApproxConvState) (input : Tensor4) :
    Tensor4 × ApproxConvState :=
  (ApproxConvLayer ac input, ac)

/-- Evaluating the `ABCLayer` forward graph: it contains no variable
assignment, so it returns its output and the state unchanged. -/
def ABCLayer_run (st : ABCState) (input : Tensor4) : Tensor4 × ABCState :=
  (ABCLayer st input, st)

/-- The all-zero filter bank / tensor. -/
def zeroW : Tensor4 := fun _ _ _ _ => 0

/-- The constant-one vector (used as concrete alphas and biases). -/
def onesF : ℕ → ℝ := fun _ => 1

/-- A minimal 1×1×1×1 shape for concrete instances. -/
def s0 : Shape4 := ⟨1, 1, 1, 1⟩

/-- The 5×5×1×32 shape of the end-to-end scenario. -/
def s8 : Shape4 := ⟨5, 5, 1, 32⟩

/-- On the non-degenerate path (`no_filters ≠ 1`) the shifted stddevs are the
shift coefficients scaled by the stddev. -/
theorem get_shifted_stddev_ok (stddev : ℝ) (M : ℕ) (hM : M ≠ 1) :
    get_shifted_stddev stddev M = .ok fun i => spreaded_deviation M i * stddev := by
  unfold get_shifted_stddev
  rw [if_neg hM]

/-- On the non-degenerate path the binary filter generator succeeds and
returns `binary_members`. -/
theorem get_binary_filters_ok (s : Shape4) (W : Tensor4) (M : ℕ) (hM : M ≠ 1) :
    get_binary_filters s W M = .ok (binary_members s W M) := by
  unfold get_binary_filters
  rw [get_shifted_stddev_ok _ _ hM]
  rfl

/-- On the non-degenerate path `ApproxConv` construction succeeds, capturing
the generated binary filters, the (defaulted) biases and the initial alphas. -/
theorem ApproxConv_ok (M : ℕ) (s : Shape4) (W : Tensor4) (bias : Option (ℕ → ℝ))
    (str : ℕ × ℕ) (α : ℕ → ℝ) (hM : M ≠ 1) :
    ApproxConv M s W bias str α =
      .ok { no_filters := M
            fshape := s
            strides := str
            filters := W
            biases := bias.getD fun _ => 0
            binary_filters := binary_members s W M
            alphas := α } := by
  unfold ApproxConv
  rw [get_binary_filters_ok s W M hM]

/-- The sum of all elements of the zero bank is 0 for every shape. -/
theorem sumAll_zeroW (s : Shape4) : sumAll s zeroW = 0 := by
  simp [sumAll, zeroW]

/-- The mean of the zero bank is 0 for every shape. -/
theorem tensor_mean_zeroW (s : Shape4) : tensor_mean s zeroW = 0 := by
  simp [tensor_mean, sumAll_zeroW]

/-- The variance of the zero bank is 0 for every shape. -/
theorem tensor_variance_zeroW (s : Shape4) : tensor_variance s zeroW = 0 := by
  simp [tensor_variance, zeroW, tensor_mean_zeroW, sumAll]

/-- The moment estimator returns mean 0 and stddev 0 on the zero bank. -/
theorem get_mean_stddev_zeroW (s : Shape4) : get_mean_stddev s zeroW = (0, 0) := by
  simp [get_mean_stddev, moments, tensor_mean_zeroW, tensor_variance_zeroW, Real.sqrt_zero]

/-- Every element of every binary member generated from the zero bank is 0
(the mean and the scaled shifts all vanish, and `tf.sign 0 = 0`). -/
theorem binary_members_zeroW (s : Shape4) (M i a b c d : ℕ) :
    binary_members s zeroW M i a b c d = 0 := by
  simp [binary_members, get_mean_stddev_zeroW, zeroW, Real.sign_zero]

/-- Claim C1 counterexample: on the all-zero 1×1×1×1 filter bank with M = 2
the generated member 0 has element 0, which is neither +1 nor −1 — refuting
"every element of every member is exactly +1 or −1 for all valid inputs
including an all-zero filter bank". -/
theorem binary_filters_zero_bank_not_pm_one :
    ∃ B, get_binary_filters s0 zeroW 2 = .ok B ∧
      ¬(B 0 0 0 0 0 = 1 ∨ B 0 0 0 0 0 = -1) := by
  refine ⟨binary_members s0 zeroW 2, get_binary_filters_ok s0 zeroW 2 (by decide), ?_⟩
  rw [binary_members_zeroW]
  norm_num

/-- Claim C1 (amended): for every filter bank and M ≥ 2 the generator
succeeds and every element of every member is +1, −1 or 0; it is +1 or −1
whenever the mean-adjusted, shift-offset value `W − mean + shift_i·stddev`
is nonzero (`tf.sign` maps exact zeros of that quantity to 0). -/
theorem binary_filters_elements_sign_values (s : Shape4) (W : Tensor4) (M : ℕ)
    (hM : 2 ≤ M) :
    ∃ B, get_binary_filters s W M = .ok B ∧
      ∀ i a b c d : ℕ,
        (B i a b c d = 1 ∨ B i a b c d = -1 ∨ B i a b c d = 0) ∧
        (W a b c d - (get_mean_stddev s W).1
            + spreaded_deviation M i * (get_mean_stddev s W).2 ≠ 0 →
          (B i a b c d = 1 ∨ B i a b c d = -1)) := by
  refine ⟨binary_members s W M, get_binary_filters_ok s W M (by omega),
    fun i a b c d => ?_⟩
  have hbm : binary_members s W M i a b c d =
      Real.sign (W a b c d - (get_mean_stddev s W).1
        + spreaded_deviation M i * (get_mean_stddev s W).2) := rfl
  rw [hbm]
  rcases lt_trichotomy (W a b c d - (get_mean_stddev s W).1
      + spreaded_deviation M i * (get_mean_stddev s W).2) 0 with h | h | h
  · exact ⟨Or.inr (Or.inl (Real.sign_of_neg h)), fun _ => Or.inr (Real.sign_of_neg h)⟩
  · exact ⟨Or.inr (Or.inr (by rw [h, Real.sign_zero])), fun hne => absurd h hne⟩
  · exact ⟨Or.inl (Real.sign_of_pos h), fun _ => Or.inl (Real.sign_of_pos h)⟩

/-- Claim C1 witness: the amended statement instantiated at the all-zero
1×1×1×1 bank with M = 2. -/
theorem binary_filters_elements_sign_values_witness :
    2 ≤ 2 ∧
    ∃ B, get_binary_filters s0 zeroW 2 = .ok B ∧
      ∀ i a b c d : ℕ,
        (B i a b c d = 1 ∨ B i a b c d = -1 ∨ B i a b c d = 0) ∧
        (zeroW a b c d - (get_mean_stddev s0 zeroW).1
            + spreaded_deviation 2 i * (get_mean_stddev s0 zeroW).2 ≠ 0 →
          (B i a b c d = 1 ∨ B i a b c d = -1)) :=
  ⟨by decide, binary_filters_elements_sign_values s0 zeroW 2 (by decide)⟩

/-- Claim C2: for every M ≥ 2 the shift coefficients computed by
`get_shifted_stddev` satisfy `shift_i = −1 + i·(2/(M−1))`; in particular
`shift_0 = −1`, `shift_{M−1} = +1`, and the offsets are symmetric around 0
(`shift_i + shift_{M−1−i} = 0` for `i < M`); the scaled shifts returned on
the success path are exactly these coefficients times the stddev. -/
theorem shift_offsets_spec (M : ℕ) (hM : 2 ≤ M) :
    (∀ i : ℕ, spreaded_deviation M i = -1 + (i : ℝ) * (2 / ((M : ℝ) - 1))) ∧
    spreaded_deviation M 0 = -1 ∧
    spreaded_deviation M (M - 1) = 1 ∧
    (∀ i : ℕ, i < M → spreaded_deviation M i + spreaded_deviation M (M - 1 - i) = 0) ∧
    (∀ stddev : ℝ, get_shifted_stddev stddev M =
      .ok fun i => spreaded_deviation M i * stddev) := by
  have h2 : (2 : ℝ) ≤ (M : ℝ) := by exact_mod_cast hM
  have hM1 : ((M : ℝ) - 1) ≠ 0 := sub_ne_zero.mpr (ne_of_gt (by linarith))
  refine ⟨fun i => by unfold spreaded_deviation; ring, ?_, ?_, ?_, ?_⟩
  · simp [spreaded_deviation]
  · have hcast : ((M - 1 : ℕ) : ℝ) = (M : ℝ) - 1 := by
      rw [Nat.cast_sub (by omega)]
      norm_num
    unfold spreaded_deviation
    rw [hcast]
    field_simp
    norm_num
  · intro i hi
    have hcast : ((M - 1 - i : ℕ) : ℝ) = (M : ℝ) - 1 - (i : ℝ) := by
      rw [Nat.cast_sub (by omega), Nat.cast_sub (by omega)]
      norm_num
    unfold spreaded_deviation
    rw [hcast]
    field_simp
    ring
  · intro stddev
    exact get_shifted_stddev_ok stddev M (by omega)

/-- Claim C2 witness: the shift-offset properties instantiated at M = 3. -/
theorem shift_offsets_spec_witness :
    2 ≤ 3 ∧
    ((∀ i : ℕ, spreaded_deviation 3 i = -1 + (i : ℝ) * (2 / (((3 : ℕ) : ℝ) - 1))) ∧
     spreaded_deviation 3 0 = -1 ∧
     spreaded_deviation 3 (3 - 1) = 1 ∧
     (∀ i : ℕ, i < 3 → spreaded_deviation 3 i + spreaded_deviation 3 (3 - 1 - i) = 0) ∧
     (∀ stddev : ℝ, get_shifted_stddev stddev 3 =
       .ok fun i => spreaded_deviation 3 i * stddev)) :=
  ⟨by decide, shift_offsets_spec 3 (by decide)⟩

/-- Claim C3: for every filter bank and M ≥ 2, generated member i equals
`sign(W − mean + shift_i·stddev)` element-wise, with mean the arithmetic
average over all elements of the bank and stddev the square root of the
average squared deviation from that mean (the spec-side formula
`specBinaryMember`). -/
theorem binary_filters_match_spec_formula (s : Shape4) (W : Tensor4) (M : ℕ)
    (hM : 2 ≤ M) :
    ∃ B, get_binary_filters s W M = .ok B ∧
      ∀ i a b c d : ℕ, B i a b c d = specBinaryMember s W M i a b c d := by
  refine ⟨binary_members s W M, get_binary_filters_ok s W M (by omega),
    fun i a b c d => ?_⟩
  have h1 : (get_mean_stddev s W).1 = specMean s W := rfl
  have h2 : (get_mean_stddev s W).2 = specStddev s W := rfl
  have hbm : binary_members s W M i a b c d =
      Real.sign (W a b c d - (get_mean_stddev s W).1
        + spreaded_deviation M i * (get_mean_stddev s W).2) := rfl
  have hsp : specBinaryMember s W M i a b c d =
      Real.sign (W a b c d - specMean s W + specShift M i * specStddev s W) := rfl
  rw [hbm, hsp, h1, h2]
  congr 1
  unfold spreaded_deviation specShift
  ring

/-- Claim C3 witness: the refinement instantiated at the all-zero 1×1×1×1
bank with M = 2. -/
theorem binary_filters_match_spec_formula_witness :
    2 ≤ 2 ∧
    ∃ B, get_binary_filters s0 zeroW 2 = .ok B ∧
      ∀ i a b c d : ℕ, B i a b c d = specBinaryMember s0 zeroW 2 i a b c d :=
  ⟨by decide, binary_filters_match_spec_formula s0 zeroW 2 (by decide)⟩

/-- Claim C4: the scalar loss of the alpha fitter equals the mean squared
error between the filter bank flattened to one dimension and the weighted
sum `Σ_i α_i · B_i` of the flattened binary members. -/
theorem alphas_loss_is_mse (s : Shape4) (M : ℕ) (W : Tensor4) (B : ℕ → Tensor4)
    (α : ℕ → ℝ) :
    alphas_loss s M W B α =
      mse (numel s) (reshaped_convolution_filters s W)
        (fun j => ∑ i ∈ Finset.range M, α i * reshaped_binary_filters s B i j) := rfl

/-- Claim C5 counterexample: constructing the approximate convolution layer
with M = 0 (< 2) succeeds — refuting "constructing with M < 2 fails fast
with a configuration error". -/
theorem approxconv_M0_constructs :
    ∃ st, ApproxConv 0 s0 zeroW none (1, 1) onesF = .ok st :=
  ⟨_, ApproxConv_ok 0 s0 zeroW none (1, 1) onesF (by decide)⟩

/-- Claim C5 (amended): only M = 1 fails at construction — the Python-int
division `2./(no_filters - 1)` raises `ZeroDivisionError` while the graph is
being built (before any evaluation); M = 0 is accepted without error, and
the ABC layer accepts K = 0 branches without error. -/
theorem construction_validation_actual (s : Shape4) (W : Tensor4)
    (bias : Option (ℕ → ℝ)) (str : ℕ × ℕ) (α : ℕ → ℝ) :
    ApproxConv 1 s W bias str α = .error "ZeroDivisionError: float division by zero" ∧
    (∃ st, ApproxConv 0 s W bias str α = .ok st) ∧
    (∃ st2, ABC s W bias 5 0 str α = .ok st2) := by
  refine ⟨rfl, ⟨_, ApproxConv_ok 0 s W bias str α (by decide)⟩, ?_⟩
  have h : ABC s W bias 5 0 str α = .ok
      { no_ApproxConvLayers := 0
        shift_parameters := fun _ => 0
        betas := fun _ => 1
        approx := { no_filters := 5
                    fshape := s
                    strides := str
                    filters := W
                    biases := bias.getD fun _ => 0
                    binary_filters := binary_members s W 5
                    alphas := α } } := by
    unfold ABC
    rw [ApproxConv_ok 5 s W bias str α (by decide)]
  exact ⟨_, h⟩

/-- Claim C6 counterexample: for M = 1 the approximate convolution layer
cannot even be constructed — the shift spacing `2./(no_filters - 1)` raises
`ZeroDivisionError`, so no forward output exists, refuting "for M = 1 the
forward output equals alpha_0·conv(input, binary_filter_0) + bias". -/
theorem approxconv_M1_construction_error :
    ApproxConv 1 s0 zeroW none (1, 1) onesF =
      .error "ZeroDivisionError: float division by zero" := rfl

/-- Claim C6 (amended): construction with M = 1 fails; for any layer that
does construct (M ≠ 1), the forward output equals
`Σ_m α_m·conv(input, B_m) + (Σ_m α_m)·bias` — the bias is added inside
every weighted branch and hence scaled by the sum of the alphas, not added
once. -/
theorem approxconv_forward_weighted_sum_with_bias (M : ℕ) (s : Shape4) (W : Tensor4)
    (bias : Option (ℕ → ℝ)) (str : ℕ × ℕ) (α : ℕ → ℝ) (hM : M ≠ 1) :
    ∃ st, ApproxConv M s W bias str α = .ok st ∧
      ∀ input : Tensor4, ∀ b i j k : ℕ,
        ApproxConvLayer st input b i j k =
          (∑ m ∈ Finset.range M, α m * conv2d s str input (st.binary_filters m) b i j k) +
            (∑ m ∈ Finset.range M, α m) * (bias.getD fun _ => 0) k := by
  refine ⟨_, ApproxConv_ok M s W bias str α hM, fun input b i j k => ?_⟩
  show (∑ m ∈ Finset.range M,
      α m * (conv2d s str input (binary_members s W M m) b i j k
        + (bias.getD fun _ => 0) k)) = _
  simp only [mul_add, Finset.sum_add_distrib, Finset.sum_mul]

/-- Claim C6 witness: the amended forward identity instantiated at M = 2,
the all-zero 1×1×1×1 bank, all-one biases and all-one alphas. -/
theorem approxconv_forward_weighted_sum_with_bias_witness :
    (2 : ℕ) ≠ 1 ∧
    ∃ st, ApproxConv 2 s0 zeroW (some onesF) (1, 1) onesF = .ok st ∧
      ∀ input : Tensor4, ∀ b i j k : ℕ,
        ApproxConvLayer st input b i j k =
          (∑ m ∈ Finset.range 2, onesF m * conv2d s0 (1, 1) input (st.binary_filters m) b i j k) +
            (∑ m ∈ Finset.range 2, onesF m) * ((some onesF).getD fun _ => 0) k :=
  ⟨by decide, approxconv_forward_weighted_sum_with_bias 2 s0 zeroW (some onesF)
    (1, 1) onesF (by decide)⟩

/-- The clipped shifted input at shift 0 is `max (min x 1) 0`. -/
theorem shifted_input_zero (x : ℝ) : shifted_input 0 x = max (min x 1) 0 := by
  unfold shifted_input clip_by_value
  rw [add_zero]

/-- Claim C7 counterexample: with shift 0, the input 0.5 binarizes to 0
(`tf.sign 0 = 0`), not to +1 — refuting "every input value ≥ 0.5 maps to
+1". -/
theorem binarize_half_not_one :
    binarized_activation 0 0.5 = 0 ∧ ¬ binarized_activation 0 0.5 = 1 := by
  have h : binarized_activation 0 0.5 = 0 := by
    unfold binarized_activation
    rw [shifted_input_zero, min_eq_left (by norm_num), max_eq_left (by norm_num),
      sub_self, Real.sign_zero]
  exact ⟨h, by rw [h]; norm_num⟩

/-- Claim C7 (amended): with shift 0 and after clipping into [0, 1], inputs
strictly above 0.5 binarize to +1, inputs strictly below 0.5 binarize to −1,
and the boundary input exactly 0.5 binarizes to 0 (`sign 0 = 0`); in
particular −0.3 clips to 0 and binarizes to −1, and 1.3 clips to 1 and
binarizes to +1. -/
theorem binarize_trichotomy :
    (∀ x : ℝ,
      (0.5 < x → binarized_activation 0 x = 1) ∧
      (x = 0.5 → binarized_activation 0 x = 0) ∧
      (x < 0.5 → binarized_activation 0 x = -1)) ∧
    binarized_activation 0 (-0.3) = -1 ∧
    binarized_activation 0 1.3 = 1 := by
  refine ⟨fun x => ⟨?_, ?_, ?_⟩, ?_, ?_⟩
  · intro hx
    have h1 : (0.5 : ℝ) < min x 1 := lt_min hx (by norm_num)
    have h2 : (0.5 : ℝ) < max (min x 1) 0 := lt_of_lt_of_le h1 (le_max_left _ _)
    unfold binarized_activation
    rw [shifted_input_zero]
    exact Real.sign_of_pos (by linarith)
  · intro hx
    rw [hx]
    unfold binarized_activation
    rw [shifted_input_zero, min_eq_left (by norm_num), max_eq_left (by norm_num),
      sub_self, Real.sign_zero]
  · intro hx
    have h1 : max (min x 1) 0 < 0.5 :=
      max_lt (lt_of_le_of_lt (min_le_left _ _) hx) (by norm_num)
    unfold binarized_activation
    rw [shifted_input_zero]
    exact Real.sign_of_neg (by linarith)
  · unfold binarized_activation
    rw [shifted_input_zero, min_eq_left (by norm_num), max_eq_right (by norm_num)]
    exact Real.sign_of_neg (by norm_num)
  · unfold binarized_activation
    rw [shifted_input_zero, min_eq_right (by norm_num), max_eq_left (by norm_num)]
    exact Real.sign_of_pos (by norm_num)

/-- Claim C7 witness: the amended trichotomy applied at the concrete input
0.7, which binarizes to +1. -/
theorem binarize_trichotomy_witness :
    (0.5 : ℝ) < 0.7 ∧ binarized_activation 0 0.7 = 1 :=
  ⟨by norm_num, (binarize_trichotomy.1 0.7).1 (by norm_num)⟩

/-- Claim C8 counterexample: on the all-zero 5×5×1×32 bank with M = 5 the
generator succeeds, but the members' elements are all 0 — neither +1 nor −1,
so the banks are not "all +1 or all consistently signed". -/
theorem zero_bank_member_element_zero :
    ∃ B, get_binary_filters s8 zeroW 5 = .ok B ∧
      B 0 0 0 0 0 = 0 ∧ ¬(B 0 0 0 0 0 = 1 ∨ B 0 0 0 0 0 = -1) := by
  refine ⟨binary_members s8 zeroW 5, get_binary_filters_ok s8 zeroW 5 (by decide),
    binary_members_zeroW s8 5 0 0 0 0 0, ?_⟩
  rw [binary_members_zeroW]
  norm_num

/-- Claim C8 (amended): on the all-zero 5×5×1×32 bank with M = 5 the moment
estimator returns mean 0 and stddev 0 without error, and the generator
returns (without crashing) 5 identical member banks — whose elements are all
0, since `tf.sign 0 = 0` in the degenerate zero-variance case. -/
theorem zero_bank_degenerate_behavior :
    get_mean_stddev s8 zeroW = (0, 0) ∧
    get_binary_filters s8 zeroW 5 = .ok (binary_members s8 zeroW 5) ∧
    (∀ i j : ℕ, binary_members s8 zeroW 5 i = binary_members s8 zeroW 5 j) ∧
    (∀ i a b c d : ℕ, binary_members s8 zeroW 5 i a b c d = 0) := by
  refine ⟨get_mean_stddev_zeroW s8, get_binary_filters_ok s8 zeroW 5 (by decide),
    ?_, fun i a b c d => binary_members_zeroW s8 5 i a b c d⟩
  intro i j
  funext a b c d
  rw [binary_members_zeroW, binary_members_zeroW]

/-- Claim C9: one invocation of the alpha training step rewrites only the
`alphas` variable — the filter bank, the biases, the binary filters, the
shift parameters and the betas are all left unchanged — and evaluating
either forward callable leaves the whole layer state unchanged. -/
theorem alpha_training_frame (st : ABCState) (opt : AdamState) (input x : Tensor4) :
    (ABC_alphas_training_op st opt).1.approx.filters = st.approx.filters ∧
    (ABC_alphas_training_op st opt).1.approx.biases = st.approx.biases ∧
    (ABC_alphas_training_op st opt).1.approx.binary_filters = st.approx.binary_filters ∧
    (ABC_alphas_training_op st opt).1.shift_parameters = st.shift_parameters ∧
    (ABC_alphas_training_op st opt).1.betas = st.betas ∧
    (alphas_training_op st.approx opt).1.filters = st.approx.filters ∧
    (ABCLayer_run st input).2 = st ∧
    (ApproxConvLayer_run st.approx x).2 = st.approx :=
  ⟨rfl, rfl, rfl, rfl, rfl, rfl, rfl, rfl⟩

/-- Claim C10: constructing the approximate convolution layer without biases
succeeds (for any M ≥ 2), the stored biases are identically 0, and the
forward output is the alpha-weighted sum of the M binary convolutions alone,
with no bias term in any branch. -/
theorem approxconv_no_bias_forward (M : ℕ) (s : Shape4) (W : Tensor4)
    (str : ℕ × ℕ) (α : ℕ → ℝ) (hM : 2 ≤ M) :
    ∃ st, ApproxConv M s W none str α = .ok st ∧
      st.biases = (fun _ => 0) ∧
      ∀ input : Tensor4, ∀ b i j k : ℕ,
        ApproxConvLayer st input b i j k =
          ∑ m ∈ Finset.range M, α m * conv2d s str input (st.binary_filters m) b i j k := by
  refine ⟨_, ApproxConv_ok M s W none str α (by omega), rfl, fun input b i j k => ?_⟩
  show (∑ m ∈ Finset.range M,
      α m * (conv2d s str input (binary_members s W M m) b i j k + (0 : ℝ))) = _
  simp only [add_zero]

/-- Claim C10 witness: the no-bias forward identity instantiated at M = 2,
the all-zero 1×1×1×1 bank and all-one alphas. -/
theorem approxconv_no_bias_forward_witness :
    2 ≤ 2 ∧
    ∃ st, ApproxConv 2 s0 zeroW none (1, 1) onesF = .ok st ∧
      st.biases = (fun _ => 0) ∧
      ∀ input : Tensor4, ∀ b i j k : ℕ,
        ApproxConvLayer st input b i j k =
          ∑ m ∈ Finset.range 2, onesF m * conv2d s0 (1, 1) input (st.binary_filters m) b i j k :=
  ⟨by decide, approxconv_no_bias_forward 2 s0 zeroW (1, 1) onesF (by decide)⟩

end

